import Mathlib

/-!
Shallow embedding of the three Anchor programs of the Purge Game repository
(purge_game, purge_coin, purge_trophies) and proofs about the frozen claims.

Machine integers (u16/u32/u64) are modelled as Nat; wrapping additions are
written with an explicit modulus, saturating additions with an explicit min
against the type maximum, and saturating subtractions as Nat subtraction
(which is truncated at zero exactly like u64::saturating_sub).
Public keys are modelled as Nat (only equality of keys is ever used by the
programs); the zero key 0 plays the role of Pubkey::default().
Fallible instructions return Except; an error return leaves every account
unchanged because the embedding is purely functional, which matches the
all-or-nothing semantics of a failed Solana instruction.
-/

def U64 : Nat := 2 ^ 64

def U32 : Nat := 2 ^ 32

def U16 : Nat := 2 ^ 16

namespace PurgeGame

def MAP_QUEUE_CAPACITY : Nat := 64

def TICKET_PAGE_CAPACITY : Nat := 64

inductive GamePhase where
  | Minting
  | PurgeWindow
  | Endgame
  | Maintenance
  deriving DecidableEq, Repr

inductive PurgeError where
  | Unauthorized
  | PhaseMismatch
  | RngRequestPending
  | RngNotLocked
  | MaxLevelReached
  | QueueFull
  | QueueEmpty
  | TicketPageFull
  | TicketPageMismatch
  deriving DecidableEq, Repr

structure GameConfig where
  price_lamports : Nat
  price_purge : Nat
  max_level : Nat
  coin_program : Nat
  trophy_program : Nat
  rng_provider : Nat
  jackpots_per_day : Nat
  early_purge_threshold : Nat
  treasury_bump : Nat
  deriving DecidableEq, Repr

structure GameState where
  authority : Nat
  config : GameConfig
  level : Nat
  phase : GamePhase
  jackpot_counter : Nat
  daily_index : Nat
  rng_locked : Bool
  rng_last_request_slot : Nat
  rng_word : Nat
  prize_pool_lamports : Nat
  next_prize_pool_lamports : Nat
  carryover_lamports : Nat
  last_level_prize_pool : Nat
  coin_prize_pool : Nat
  map_queue_len : Nat
  pending_endgame_cursor : Nat
  bump : Nat
  deriving DecidableEq, Repr

structure RngRequestState where
  slot : Nat
  tag : Nat
  fulfilled : Bool
  bump : Nat
  deriving DecidableEq, Repr

structure PendingMapMint where
  player : Nat
  trait_id : Nat
  level : Nat
  deriving DecidableEq, Repr

/-- PendingMapMint::default(): all fields zero. -/
def PendingMapMint.zero : PendingMapMint := ⟨0, 0, 0⟩

structure PendingMapMintQueue where
  head : Nat
  tail : Nat
  items : Nat → PendingMapMint

/-- PendingMapMintQueue::len: tail.saturating_sub(head). -/
def PendingMapMintQueue.len (q : PendingMapMintQueue) : Nat :=
  q.tail - q.head

/-- PendingMapMintQueue::push: fails QueueFull when len() >= capacity, otherwise
writes the entry at slot tail % capacity and advances tail with wrapping_add. -/
def PendingMapMintQueue.push (q : PendingMapMintQueue) (entry : PendingMapMint) :
    Except PurgeError PendingMapMintQueue :=
  if MAP_QUEUE_CAPACITY ≤ q.len then
    .error .QueueFull
  else
    .ok { head := q.head,
          tail := (q.tail + 1) % U64,
          items := fun i => if i = q.tail % MAP_QUEUE_CAPACITY then entry else q.items i }

/-- PendingMapMintQueue::pop: fails QueueEmpty when head == tail, otherwise
returns the entry at slot head % capacity, resets that slot to the default
value, and advances head with wrapping_add. -/
def PendingMapMintQueue.pop (q : PendingMapMintQueue) :
    Except PurgeError (PendingMapMint × PendingMapMintQueue) :=
  if q.head = q.tail then
    .error .QueueEmpty
  else
    .ok (q.items (q.head % MAP_QUEUE_CAPACITY),
         { head := (q.head + 1) % U64,
           tail := q.tail,
           items := fun i =>
             if i = q.head % MAP_QUEUE_CAPACITY then PendingMapMint.zero else q.items i })

/-- The map mint queue as written by initialize_game: head = 0, tail = 0,
items all default. -/
def initQ : PendingMapMintQueue :=
  { head := 0, tail := 0, items := fun _ => PendingMapMint.zero }

/-- advance_level: fails MaxLevelReached when level >= config.max_level,
otherwise saturating-increments level (u32) and sets phase to Maintenance.
It touches no other field of the game state (the prize-pool rotation is an
unimplemented TODO in the source). -/
def advance_level (state : GameState) : Except PurgeError GameState :=
  if state.config.max_level ≤ state.level then
    .error .MaxLevelReached
  else
    .ok { state with level := min (state.level + 1) (U32 - 1), phase := .Maintenance }

/-- request_rng: fails RngRequestPending while the lock is held, otherwise
locks, records the current slot on the state, and writes the request account. -/
def request_rng (state : GameState) (clock_slot : Nat) (tag : Nat) (bump : Nat) :
    Except PurgeError (GameState × RngRequestState) :=
  if state.rng_locked then
    .error .RngRequestPending
  else
    .ok ({ state with rng_locked := true, rng_last_request_slot := clock_slot },
         { slot := clock_slot, tag := tag, fulfilled := false, bump := bump })

/-- fulfill_rng: fails RngNotLocked while idle, fails Unauthorized unless the
signing authority is config.rng_provider, otherwise stores the revealed word,
clears the lock and marks the request fulfilled. -/
def fulfill_rng (caller : Nat) (state : GameState) (request : RngRequestState)
    (rng_word : Nat) : Except PurgeError (GameState × RngRequestState) :=
  if !state.rng_locked then
    .error .RngNotLocked
  else if caller ≠ state.config.rng_provider then
    .error .Unauthorized
  else
    .ok ({ state with rng_word := rng_word, rng_locked := false },
         { request with fulfilled := true })

structure ConfigureGameArgs where
  price_lamports : Option Nat
  price_purge : Option Nat
  jackpots_per_day : Option Nat
  early_purge_threshold : Option Nat
  rng_provider : Option Nat
  deriving DecidableEq, Repr

/-- configure_game: requires caller == state.authority, then overwrites each
config field for which an argument was supplied. -/
def configure_game (caller : Nat) (state : GameState) (args : ConfigureGameArgs) :
    Except PurgeError GameState :=
  if caller ≠ state.authority then
    .error .Unauthorized
  else
    .ok { state with config :=
          { state.config with
            price_lamports := args.price_lamports.getD state.config.price_lamports,
            price_purge := args.price_purge.getD state.config.price_purge,
            jackpots_per_day := args.jackpots_per_day.getD state.config.jackpots_per_day,
            early_purge_threshold :=
              args.early_purge_threshold.getD state.config.early_purge_threshold,
            rng_provider := args.rng_provider.getD state.config.rng_provider } }

/-- queue_map_mint: requires caller == state.authority, pushes the entry, and
mirrors the new queue length into state.map_queue_len (cast to u32). -/
def queue_map_mint (caller : Nat) (state : GameState) (queue : PendingMapMintQueue)
    (entry : PendingMapMint) : Except PurgeError (GameState × PendingMapMintQueue) :=
  if caller ≠ state.authority then
    .error .Unauthorized
  else
    match queue.push entry with
    | .error e => .error e
    | .ok q => .ok ({ state with map_queue_len := q.len % U32 }, q)

/-- dequeue_map_mint: requires caller == state.authority, pops one entry, and
mirrors the new queue length into state.map_queue_len (cast to u32). -/
def dequeue_map_mint (caller : Nat) (state : GameState) (queue : PendingMapMintQueue) :
    Except PurgeError (GameState × PendingMapMintQueue × PendingMapMint) :=
  if caller ≠ state.authority then
    .error .Unauthorized
  else
    match queue.pop with
    | .error e => .error e
    | .ok (popped, q) => .ok ({ state with map_queue_len := q.len % U32 }, q, popped)

structure TraitTicketPage where
  level : Nat
  trait_id : Nat
  page_index : Nat
  count : Nat
  seats : Nat → Nat
  bump : Nat

/-- TraitTicketPage::ensure_header: a page with count == 0 is (re)bound to the
given key; a non-empty page fails TicketPageMismatch unless the key matches. -/
def TraitTicketPage.ensure_header (p : TraitTicketPage) (level trait_id page_index : Nat) :
    Except PurgeError TraitTicketPage :=
  if p.count = 0 then
    .ok { p with level := level, trait_id := trait_id, page_index := page_index }
  else if p.level ≠ level ∨ p.trait_id ≠ trait_id ∨ p.page_index ≠ page_index then
    .error .TicketPageMismatch
  else
    .ok p

/-- TraitTicketPage::push: fails TicketPageFull at capacity, otherwise seats
the player at index count and saturating-increments count (u16). -/
def TraitTicketPage.push (p : TraitTicketPage) (player : Nat) :
    Except PurgeError (Nat × TraitTicketPage) :=
  if TICKET_PAGE_CAPACITY ≤ p.count then
    .error .TicketPageFull
  else
    .ok (p.count,
         { p with seats := fun i => if i = p.count then player else p.seats i,
                  count := min (p.count + 1) (U16 - 1) })

/-- TraitTicketPage::clear: resets count to 0 and all seats to the default key. -/
def TraitTicketPage.clear (p : TraitTicketPage) : TraitTicketPage :=
  { p with count := 0, seats := fun _ => 0 }

/-- add_trait_ticket: requires caller == state.authority, then ensure_header
followed by push on the ticket page. -/
def add_trait_ticket (caller : Nat) (state : GameState) (page : TraitTicketPage)
    (player : Nat) (level trait_id page_index : Nat) :
    Except PurgeError (TraitTicketPage × Nat) :=
  if caller ≠ state.authority then
    .error .Unauthorized
  else
    match page.ensure_header level trait_id page_index with
    | .error e => .error e
    | .ok p1 =>
      match p1.push player with
      | .error e => .error e
      | .ok (position, p2) => .ok (p2, position)

/-- clear_trait_ticket_page: requires caller == state.authority, then
ensure_header followed by clear on the ticket page. -/
def clear_trait_ticket_page (caller : Nat) (state : GameState) (page : TraitTicketPage)
    (level trait_id page_index : Nat) : Except PurgeError TraitTicketPage :=
  if caller ≠ state.authority then
    .error .Unauthorized
  else
    match page.ensure_header level trait_id page_index with
    | .error e => .error e
    | .ok p1 => .ok p1.clear

end PurgeGame

namespace PurgeCoin

inductive PurgeCoinError where
  | Unauthorized
  | BelowMinimumBet
  | BelowMinimumBurn
  | BetAlreadyResolved
  | PayoutExceeded
  deriving DecidableEq, Repr

structure PurgeCoinState where
  authority : Nat
  mint : Nat
  min_bet : Nat
  min_burn : Nat
  house_edge_bps : Nat
  burn_tax_bps : Nat
  total_burned : Nat
  total_bets : Nat
  jackpot_pool_purge : Nat
  jackpot_pool_sol : Nat
  last_level_synced : Nat
  treasury_bump : Nat
  bounty_bump : Nat
  bump : Nat
  deriving DecidableEq, Repr

structure BetAccount where
  player : Nat
  amount : Nat
  target_level : Nat
  risk : Nat
  resolved : Bool
  bet_id : Nat
  result : Option Bool
  slot_placed : Nat
  slot_resolved : Option Nat
  bump : Nat
  deriving DecidableEq, Repr

structure AffiliateState where
  code_seed : Nat
  total_earned : Nat
  pending_claim : Nat
  pending_claim_lamports : Nat
  last_level : Nat
  last_claim_slot : Nat
  bump : Nat
  deriving DecidableEq, Repr

/-- settle_bet: fails BetAlreadyResolved if the record is already resolved;
otherwise marks it resolved, records result and slot, and adjusts the
PURGE-side jackpot pool: saturating-subtracts the payout on a win,
saturating-adds the wager on a loss. -/
def settle_bet (state : PurgeCoinState) (bet : BetAccount) (result : Bool)
    (payout : Nat) (clock_slot : Nat) :
    Except PurgeCoinError (PurgeCoinState × BetAccount) :=
  if bet.resolved then
    .error .BetAlreadyResolved
  else
    .ok ({ state with jackpot_pool_purge :=
             (if result then state.jackpot_pool_purge - payout
              else min (state.jackpot_pool_purge + bet.amount) (U64 - 1)) },
         { bet with resolved := true, result := some result,
                    slot_resolved := some clock_slot })

/-- award_affiliate: requires caller == state.authority; on a fresh account
(bump == 0) records the bump and code seed; then saturating-adds the amount to
total_earned and pending_claim and stamps last_level. -/
def award_affiliate (caller : Nat) (state : PurgeCoinState)
    (affiliate : AffiliateState) (code_seed : Nat) (bump : Nat) (amount : Nat) :
    Except PurgeCoinError AffiliateState :=
  if caller ≠ state.authority then
    .error .Unauthorized
  else
    let a0 := if affiliate.bump = 0
              then { affiliate with bump := bump, code_seed := code_seed }
              else affiliate
    .ok { a0 with
          total_earned := min (a0.total_earned + amount) (U64 - 1),
          pending_claim := min (a0.pending_claim + amount) (U64 - 1),
          last_level := state.last_level_synced }

/-- configure_coin: requires caller == state.authority, then overwrites each
field for which an argument was supplied. -/
def configure_coin (caller : Nat) (state : PurgeCoinState)
    (min_bet min_burn house_edge_bps burn_tax_bps : Option Nat) :
    Except PurgeCoinError PurgeCoinState :=
  if caller ≠ state.authority then
    .error .Unauthorized
  else
    .ok { state with
          min_bet := min_bet.getD state.min_bet,
          min_burn := min_burn.getD state.min_burn,
          house_edge_bps := house_edge_bps.getD state.house_edge_bps,
          burn_tax_bps := burn_tax_bps.getD state.burn_tax_bps }

/-- claim_affiliate: the signing receiver must equal state.authority (fails
Unauthorized otherwise); fails PayoutExceeded when amount > pending_claim;
otherwise saturating-subtracts the amount from pending_claim and stamps the
claim slot. -/
def claim_affiliate (receiver : Nat) (state : PurgeCoinState)
    (affiliate : AffiliateState) (amount : Nat) (clock_slot : Nat) :
    Except PurgeCoinError AffiliateState :=
  if receiver ≠ state.authority then
    .error .Unauthorized
  else if affiliate.pending_claim < amount then
    .error .PayoutExceeded
  else
    .ok { affiliate with
          pending_claim := affiliate.pending_claim - amount,
          last_claim_slot := clock_slot }

end PurgeCoin

namespace PurgeTrophies

def MAP_REWARD_QUEUE_CAPACITY : Nat := 64

inductive TrophyError where
  | Unauthorized
  | QueueFull
  | QueueEmpty
  | LevelAlreadySettled
  deriving DecidableEq, Repr

structure TrophyState where
  authority : Nat
  map_reward_basis_points : Nat
  map_reward_minimum : Nat
  purge_coin_program : Nat
  purge_game_program : Nat
  game_authority : Nat
  last_level_processed : Nat
  vault_bump : Nat
  sample_bump : Nat
  bump : Nat
  deriving DecidableEq, Repr

structure TrophyVault where
  pending_amount : Nat
  last_level_paid : Nat
  bump : Nat
  deriving DecidableEq, Repr

structure MapRewardEntry where
  player : Nat
  trait_id : Nat
  level : Nat
  amount_lamports : Nat
  deriving DecidableEq, Repr

/-- MapRewardEntry::default(): all fields zero. -/
def MapRewardEntry.zero : MapRewardEntry := ⟨0, 0, 0, 0⟩

structure MapRewardQueueAccount where
  head : Nat
  tail : Nat
  entries : Nat → MapRewardEntry

/-- The map reward queue as written by the trophy program's init instruction:
head = 0, tail = 0, entries all default. -/
def initR : MapRewardQueueAccount :=
  { head := 0, tail := 0, entries := fun _ => MapRewardEntry.zero }

/-- award_trophy: requires caller == state.authority, then saturating-adds the
deferred lamports to the vault's pending amount. -/
def award_trophy (caller : Nat) (state : TrophyState) (vault : TrophyVault)
    (deferred_lamports : Nat) : Except TrophyError TrophyVault :=
  if caller ≠ state.authority then
    .error .Unauthorized
  else
    .ok { vault with pending_amount :=
            (min (vault.pending_amount + deferred_lamports) (U64 - 1)) }

/-- enqueue_map_reward: requires caller == state.game_authority; computes
next_tail with wrapping_add and fails QueueFull when the wrapping difference
next_tail - head exceeds the capacity; otherwise writes the entry at slot
tail % capacity and stores next_tail.  The u64 subtraction next_tail - head is
two's-complement wrapping, modelled as (next_tail + U64 - head % U64) % U64. -/
def enqueue_map_reward (caller : Nat) (state : TrophyState)
    (queue : MapRewardQueueAccount) (entry : MapRewardEntry) :
    Except TrophyError MapRewardQueueAccount :=
  if caller ≠ state.game_authority then
    .error .Unauthorized
  else
    let next_tail := (queue.tail + 1) % U64
    if MAP_REWARD_QUEUE_CAPACITY < (next_tail + U64 - queue.head % U64) % U64 then
      .error .QueueFull
    else
      .ok { queue with
            entries := fun i =>
              if i = queue.tail % MAP_REWARD_QUEUE_CAPACITY then entry else queue.entries i,
            tail := next_tail }

/-- pop_map_reward: fails QueueEmpty when head == tail; otherwise resets the
slot head % capacity to the default entry and advances head with wrapping_add.
The accounts context of this instruction contains no signer and no state
account: no caller identity is validated. -/
def pop_map_reward (queue : MapRewardQueueAccount) :
    Except TrophyError MapRewardQueueAccount :=
  if queue.head = queue.tail then
    .error .QueueEmpty
  else
    .ok { queue with
          entries := fun i =>
            if i = queue.head % MAP_REWARD_QUEUE_CAPACITY then MapRewardEntry.zero
            else queue.entries i,
          head := (queue.head + 1) % U64 }

end PurgeTrophies

namespace PurgeGame

/-- A push-or-pop operation on the map mint queue. -/
inductive QOp where
  | push (entry : PendingMapMint)
  | pop
  deriving DecidableEq, Repr

/-- Run a list of operations on the map mint queue, recording the entries
returned by the successful pops in order; a failed operation leaves the queue
unchanged (a failed Solana instruction rolls back). -/
def runQT : List QOp → PendingMapMintQueue → PendingMapMintQueue × List PendingMapMint
  | [], q => (q, [])
  | .push e :: rest, q =>
    match q.push e with
    | .ok q2 => runQT rest q2
    | .error _ => runQT rest q
  | .pop :: rest, q =>
    match q.pop with
    | .ok (e, q2) =>
      let r := runQT rest q2
      (r.1, e :: r.2)
    | .error _ => runQT rest q

/-- Modelled from the spec's words: the ideal capacity-64 FIFO queue as a
plain list, front = earliest-pushed still-unpopped item.  Push appends unless
the queue already holds 64 items. -/
def specFifoPush (l : List PendingMapMint) (e : PendingMapMint) : List PendingMapMint :=
  if MAP_QUEUE_CAPACITY ≤ l.length then l else l ++ [e]

/-- Modelled from the spec's words: run a list of operations on the ideal
FIFO list, recording the items removed by the successful pops in order. -/
def runSpecFifo : List QOp → List PendingMapMint → List PendingMapMint × List PendingMapMint
  | [], l => (l, [])
  | .push e :: rest, l => runSpecFifo rest (specFifoPush l e)
  | .pop :: rest, l =>
    match l with
    | [] => runSpecFifo rest []
    | e :: l2 =>
      let r := runSpecFifo rest l2
      (r.1, e :: r.2)

/-- The pending entries of the concrete ring buffer read out in queue order:
entry i of the abstraction sits at storage slot (head + i) % capacity. -/
def absQ (q : PendingMapMintQueue) : List PendingMapMint :=
  (List.range q.len).map (fun i => q.items ((q.head + i) % MAP_QUEUE_CAPACITY))

/-- Inductive invariant for states of the map mint queue reachable in at most
n operations: head trails tail by at most the capacity and tail is bounded by
the number of operations performed. -/
def GoodQ (n : Nat) (q : PendingMapMintQueue) : Prop :=
  q.head ≤ q.tail ∧ q.tail ≤ q.head + MAP_QUEUE_CAPACITY ∧ q.tail ≤ n

/-- One push immediately followed by one pop, n times over: drives head and
tail upward together while keeping the queue empty. -/
def pushPops : Nat → List QOp
  | 0 => []
  | n + 1 => pushPops n ++ [QOp.push ⟨1, 1, 1⟩, QOp.pop]

end PurgeGame

namespace PurgeTrophies

/-- A push-or-pop operation on the map reward queue. -/
inductive ROp where
  | push (entry : MapRewardEntry)
  | pop
  deriving DecidableEq, Repr

/-- One operation on the map reward queue, invoked by the recorded game
authority so that the Unauthorized gate of enqueue_map_reward passes; a
failed operation leaves the queue unchanged. -/
def stepR (st : TrophyState) (q : MapRewardQueueAccount) : ROp → MapRewardQueueAccount
  | .push e =>
    match enqueue_map_reward st.game_authority st q e with
    | .ok q2 => q2
    | .error _ => q
  | .pop =>
    match pop_map_reward q with
    | .ok q2 => q2
    | .error _ => q

/-- Run a list of operations on the map reward queue. -/
def runR (st : TrophyState) (ops : List ROp) (q : MapRewardQueueAccount) :
    MapRewardQueueAccount :=
  ops.foldl (stepR st) q

/-- Inductive invariant for states of the map reward queue reachable in at
most n operations. -/
def GoodR (n : Nat) (q : MapRewardQueueAccount) : Prop :=
  q.head ≤ q.tail ∧ q.tail ≤ q.head + MAP_REWARD_QUEUE_CAPACITY ∧ q.tail ≤ n

end PurgeTrophies

/-- 2^64 - 1 push-then-pop pairs followed by one more push: the sequence that
drives the queue's u64 tail across the wrapping boundary. -/
def bigSeq : List PurgeGame.QOp :=
  PurgeGame.pushPops (U64 - 1) ++ [PurgeGame.QOp.push ⟨1, 1, 1⟩]

section Fixtures

open PurgeGame PurgeCoin PurgeTrophies

/-- A concrete game configuration used by witnesses and counterexamples. -/
def cfg1 : GameConfig :=
  { price_lamports := 10, price_purge := 20, max_level := 9, coin_program := 101,
    trophy_program := 102, rng_provider := 77, jackpots_per_day := 2,
    early_purge_threshold := 50, treasury_bump := 250 }

/-- A concrete game state below the level cap, with distinctive prize pools. -/
def gs1 : GameState :=
  { authority := 11, config := cfg1, level := 1, phase := .Minting,
    jackpot_counter := 0, daily_index := 0, rng_locked := false,
    rng_last_request_slot := 0, rng_word := 0, prize_pool_lamports := 100,
    next_prize_pool_lamports := 50, carryover_lamports := 7,
    last_level_prize_pool := 3, coin_prize_pool := 0, map_queue_len := 0,
    pending_endgame_cursor := 0, bump := 255 }

/-- A concrete RNG request account. -/
def req0 : RngRequestState := { slot := 0, tag := 0, fulfilled := false, bump := 0 }

/-- A concrete coin ledger state; authority is key 5. -/
def coin1 : PurgeCoinState :=
  { authority := 5, mint := 6, min_bet := 1, min_burn := 1, house_edge_bps := 200,
    burn_tax_bps := 100, total_burned := 0, total_bets := 0,
    jackpot_pool_purge := 1000, jackpot_pool_sol := 0, last_level_synced := 4,
    treasury_bump := 1, bounty_bump := 2, bump := 3 }

/-- The coin ledger with the PURGE jackpot pool at u64::MAX. -/
def coinMax : PurgeCoinState := { coin1 with jackpot_pool_purge := U64 - 1 }

/-- An unresolved bet with a wager of 1. -/
def betU : BetAccount :=
  { player := 9, amount := 1, target_level := 2, risk := 1, resolved := false,
    bet_id := 7, result := none, slot_placed := 4, slot_resolved := none, bump := 8 }

/-- An affiliate record whose code seed is key 21, with 40 pending. -/
def aff1 : AffiliateState :=
  { code_seed := 21, total_earned := 100, pending_claim := 40,
    pending_claim_lamports := 0, last_level := 2, last_claim_slot := 0, bump := 9 }

/-- An empty trait ticket page. -/
def page0 : TraitTicketPage :=
  { level := 0, trait_id := 0, page_index := 0, count := 0,
    seats := fun _ => 0, bump := 1 }

/-- A concrete trophy ledger state; authority 31, game authority 32. -/
def troph1 : TrophyState :=
  { authority := 31, map_reward_basis_points := 100, map_reward_minimum := 10,
    purge_coin_program := 101, purge_game_program := 103, game_authority := 32,
    last_level_processed := 0, vault_bump := 1, sample_bump := 2, bump := 3 }

/-- A map reward queue holding exactly one pending entry. -/
def rq1 : MapRewardQueueAccount :=
  { head := 0, tail := 1, entries := fun _ => MapRewardEntry.zero }

/-- A map mint queue holding exactly one pending entry. -/
def rqGame1 : PendingMapMintQueue :=
  { head := 0, tail := 1, items := fun _ => PendingMapMint.zero }

/-- The empty map mint queue at the u64 wrap boundary: head = tail = 2^64 - 1
with every slot default; reachable from the initial queue by 2^64 - 1
push-then-pop pairs. -/
def qWrap : PendingMapMintQueue :=
  { head := U64 - 1, tail := U64 - 1, items := fun _ => PendingMapMint.zero }

end Fixtures

/-- 2^64 as a numeral, for omega. -/
theorem U64_eq : U64 = 18446744073709551616 := by norm_num [U64]

/-- 2^32 as a numeral, for omega. -/
theorem U32_eq : U32 = 4294967296 := by norm_num [U32]

section QueueRefinementLemmas

open PurgeGame

/-- Two numbers closer together than the modulus have distinct remainders. -/
theorem mod_ne_of_lt_of_sub_lt {a b c : Nat} (hab : a < b) (h : b - a < c) :
    a % c ≠ b % c := by
  intro h2
  have hd : c ∣ b - a := (Nat.modEq_iff_dvd' hab.le).mp h2
  have hpos : 0 < b - a := by omega
  have := Nat.le_of_dvd hpos hd
  omega

/-- The abstraction of the ring buffer has exactly len elements. -/
theorem absQ_length (q : PendingMapMintQueue) : (absQ q).length = q.len := by
  simp [absQ]

/-- A push below capacity and below the u64 wrap boundary succeeds and yields
the expected ring-buffer state. -/
theorem push_ok_eq {q : PendingMapMintQueue} {e : PendingMapMint}
    (hlen : q.len < MAP_QUEUE_CAPACITY) (hw : q.tail + 1 < U64) :
    q.push e = .ok { head := q.head, tail := q.tail + 1,
                     items := fun i =>
                       if i = q.tail % MAP_QUEUE_CAPACITY then e else q.items i } := by
  simp [PendingMapMintQueue.push, Nat.not_le.mpr hlen, Nat.mod_eq_of_lt hw]

/-- A push below capacity appends the entry to the abstraction. -/
theorem absQ_push {q : PendingMapMintQueue} {e : PendingMapMint}
    (h1 : q.head ≤ q.tail) (hlen : q.len < MAP_QUEUE_CAPACITY) :
    absQ { head := q.head, tail := q.tail + 1,
           items := fun i =>
             if i = q.tail % MAP_QUEUE_CAPACITY then e else q.items i }
      = absQ q ++ [e] := by
  simp only [PendingMapMintQueue.len, MAP_QUEUE_CAPACITY] at hlen
  have hlen2 : (q.tail + 1) - q.head = (q.tail - q.head) + 1 := by omega
  simp only [absQ, PendingMapMintQueue.len]
  rw [hlen2, List.range_succ, List.map_append]
  congr 1
  · apply List.map_congr_left
    intro i hi
    simp only [List.mem_range] at hi
    have hne : (q.head + i) % MAP_QUEUE_CAPACITY ≠ q.tail % MAP_QUEUE_CAPACITY := by
      apply mod_ne_of_lt_of_sub_lt
      · omega
      · simp only [MAP_QUEUE_CAPACITY]
        omega
    simp [hne]
  · have hht : q.head + (q.tail - q.head) = q.tail := by omega
    simp [hht]

/-- A pop on a non-empty queue below the u64 wrap boundary succeeds, returning
the slot at head and resetting it. -/
theorem pop_ok_eq {q : PendingMapMintQueue} (hne : q.head ≠ q.tail)
    (hw : q.head + 1 < U64) :
    q.pop = .ok (q.items (q.head % MAP_QUEUE_CAPACITY),
                 { head := q.head + 1, tail := q.tail,
                   items := fun i =>
                     if i = q.head % MAP_QUEUE_CAPACITY then PendingMapMint.zero
                     else q.items i }) := by
  simp [PendingMapMintQueue.pop, hne, Nat.mod_eq_of_lt hw]

/-- On a non-empty queue, the abstraction is the slot at head consed onto the
abstraction of the popped queue. -/
theorem absQ_pop {q : PendingMapMintQueue}
    (h1 : q.head ≤ q.tail) (hne : q.head ≠ q.tail)
    (h2 : q.tail ≤ q.head + MAP_QUEUE_CAPACITY) :
    absQ q = q.items (q.head % MAP_QUEUE_CAPACITY) ::
      absQ { head := q.head + 1, tail := q.tail,
             items := fun i =>
               if i = q.head % MAP_QUEUE_CAPACITY then PendingMapMint.zero
               else q.items i } := by
  simp only [MAP_QUEUE_CAPACITY] at h2
  have hk : q.tail - q.head = (q.tail - (q.head + 1)) + 1 := by omega
  simp only [absQ, PendingMapMintQueue.len]
  rw [hk, List.range_succ_eq_map, List.map_cons, List.map_map]
  congr 1
  apply List.map_congr_left
  intro i hi
  simp only [List.mem_range] at hi
  have hne2 : q.head % MAP_QUEUE_CAPACITY ≠ (q.head + 1 + i) % MAP_QUEUE_CAPACITY := by
    apply mod_ne_of_lt_of_sub_lt
    · omega
    · simp only [MAP_QUEUE_CAPACITY]
      omega
  simp only [Function.comp_apply, Nat.succ_eq_add_one, Ne.symm hne2, if_false]
  have h3 : q.head + (i + 1) = q.head + 1 + i := by omega
  rw [h3]

/-- GoodQ is monotone in the operation bound. -/
theorem GoodQ_mono {m n : Nat} {q : PendingMapMintQueue} (h : m ≤ n) :
    GoodQ m q → GoodQ n q := by
  intro hg
  exact ⟨hg.1, hg.2.1, hg.2.2.trans h⟩

/-- Master refinement: as long as fewer than 2^64 operations have been
performed, running operations on the concrete ring buffer preserves the
invariant, tracks the ideal FIFO list through the abstraction and produces
exactly the ideal FIFO pop trace. -/
theorem runQT_refines :
    ∀ (ops : List QOp) (q : PendingMapMintQueue) (n : Nat),
      GoodQ n q → n + ops.length < U64 →
      GoodQ (n + ops.length) (runQT ops q).1 ∧
      absQ (runQT ops q).1 = (runSpecFifo ops (absQ q)).1 ∧
      (runQT ops q).2 = (runSpecFifo ops (absQ q)).2 := by
  intro ops
  induction ops with
  | nil =>
    intro q n hg hb
    simpa [runQT, runSpecFifo] using hg
  | cons op rest ih =>
    intro q n hg hb
    obtain ⟨hg1, hg2, hg3⟩ := hg
    simp only [MAP_QUEUE_CAPACITY] at hg2
    simp only [List.length_cons] at hb ⊢
    cases op with
    | push e =>
      by_cases hfull : MAP_QUEUE_CAPACITY ≤ q.len
      · have hp : q.push e = .error .QueueFull := by
          simp [PendingMapMintQueue.push, hfull]
        have habs : specFifoPush (absQ q) e = absQ q := by
          simp [specFifoPush, absQ_length, hfull]
        have hrun : runQT (QOp.push e :: rest) q = runQT rest q := by
          simp [runQT, hp]
        have hspec : runSpecFifo (QOp.push e :: rest) (absQ q) =
            runSpecFifo rest (absQ q) := by
          simp [runSpecFifo, habs]
        rw [hrun, hspec]
        have hrec := ih q (n + 1)
          ⟨hg1, by simp only [MAP_QUEUE_CAPACITY]; omega, by omega⟩ (by omega)
        refine ⟨GoodQ_mono (by omega) hrec.1, hrec.2.1, hrec.2.2⟩
      · have hlen : q.len < MAP_QUEUE_CAPACITY := Nat.not_le.mp hfull
        have hw : q.tail + 1 < U64 := by omega
        have hp := push_ok_eq (e := e) hlen hw
        have habs : specFifoPush (absQ q) e = absQ q ++ [e] := by
          simp [specFifoPush, absQ_length, Nat.not_le.mpr hlen]
        have hrun : runQT (QOp.push e :: rest) q =
            runQT rest { head := q.head, tail := q.tail + 1,
                         items := fun i =>
                           if i = q.tail % MAP_QUEUE_CAPACITY then e else q.items i } := by
          simp [runQT, hp]
        have hspec : runSpecFifo (QOp.push e :: rest) (absQ q) =
            runSpecFifo rest (absQ q ++ [e]) := by
          simp [runSpecFifo, habs]
        rw [hrun, hspec, ← absQ_push hg1 hlen]
        have hlen' : q.len < 64 := by simpa [MAP_QUEUE_CAPACITY] using hlen
        simp only [PendingMapMintQueue.len] at hlen'
        have hrec := ih
          { head := q.head, tail := q.tail + 1,
            items := fun i =>
              if i = q.tail % MAP_QUEUE_CAPACITY then e else q.items i }
          (n + 1)
          ⟨by simp only; omega, by simp only [MAP_QUEUE_CAPACITY]; omega,
           by simp only; omega⟩
          (by omega)
        refine ⟨GoodQ_mono (by omega) hrec.1, hrec.2.1, hrec.2.2⟩
    | pop =>
      by_cases hemp : q.head = q.tail
      · have hp : q.pop = .error .QueueEmpty := by
          simp [PendingMapMintQueue.pop, hemp]
        have habs : absQ q = [] := by
          simp [absQ, PendingMapMintQueue.len, hemp]
        have hrun : runQT (QOp.pop :: rest) q = runQT rest q := by
          simp [runQT, hp]
        have hspec : runSpecFifo (QOp.pop :: rest) (absQ q) =
            runSpecFifo rest (absQ q) := by
          rw [habs]
          simp [runSpecFifo]
        rw [hrun, hspec]
        have hrec := ih q (n + 1)
          ⟨hg1, by simp only [MAP_QUEUE_CAPACITY]; omega, by omega⟩ (by omega)
        refine ⟨GoodQ_mono (by omega) hrec.1, hrec.2.1, hrec.2.2⟩
      · have hlt : q.head < q.tail := by omega
        have hw : q.head + 1 < U64 := by omega
        have hp := pop_ok_eq hemp hw
        have habs := absQ_pop hg1 hemp (by simp only [MAP_QUEUE_CAPACITY]; omega)
        have hrun : runQT (QOp.pop :: rest) q =
            ((runQT rest
               { head := q.head + 1, tail := q.tail,
                 items := fun i =>
                   if i = q.head % MAP_QUEUE_CAPACITY then PendingMapMint.zero
                   else q.items i }).1,
             q.items (q.head % MAP_QUEUE_CAPACITY) ::
               (runQT rest
                 { head := q.head + 1, tail := q.tail,
                   items := fun i =>
                     if i = q.head % MAP_QUEUE_CAPACITY then PendingMapMint.zero
                     else q.items i }).2) := by
          simp [runQT, hp]
        have hspec : runSpecFifo (QOp.pop :: rest) (absQ q) =
            ((runSpecFifo rest
               (absQ { head := q.head + 1, tail := q.tail,
                       items := fun i =>
                         if i = q.head % MAP_QUEUE_CAPACITY then PendingMapMint.zero
                         else q.items i })).1,
             q.items (q.head % MAP_QUEUE_CAPACITY) ::
               (runSpecFifo rest
                 (absQ { head := q.head + 1, tail := q.tail,
                         items := fun i =>
                           if i = q.head % MAP_QUEUE_CAPACITY then PendingMapMint.zero
                           else q.items i })).2) := by
          rw [habs]
          simp [runSpecFifo]
        rw [hrun, hspec]
        have hrec := ih
          { head := q.head + 1, tail := q.tail,
            items := fun i =>
              if i = q.head % MAP_QUEUE_CAPACITY then PendingMapMint.zero
              else q.items i }
          (n + 1)
          ⟨by simp only; omega, by simp only [MAP_QUEUE_CAPACITY]; omega,
           by simp only; omega⟩
          (by omega)
        exact ⟨GoodQ_mono (by omega) hrec.1, hrec.2.1, by rw [hrec.2.2]⟩

end QueueRefinementLemmas

section TrophyQueueLemmas

open PurgeTrophies

/-- GoodR is monotone in the operation bound. -/
theorem GoodR_mono {m n : Nat} {q : MapRewardQueueAccount} (h : m ≤ n) :
    GoodR m q → GoodR n q := by
  intro hg
  exact ⟨hg.1, hg.2.1, hg.2.2.trans h⟩

/-- As long as fewer than 2^64 operations have been performed, running
operations on the map reward queue preserves the ring-buffer invariant. -/
theorem runR_good :
    ∀ (ops : List ROp) (st : TrophyState) (q : MapRewardQueueAccount) (n : Nat),
      GoodR n q → n + ops.length < U64 →
      GoodR (n + ops.length) (runR st ops q) := by
  intro ops
  induction ops with
  | nil =>
    intro st q n hg hb
    simpa [runR] using hg
  | cons op rest ih =>
    intro st q n hg hb
    obtain ⟨hg1, hg2, hg3⟩ := hg
    simp only [MAP_REWARD_QUEUE_CAPACITY] at hg2
    simp only [List.length_cons] at hb ⊢
    have hrw : runR st (op :: rest) q = runR st rest (stepR st q op) := rfl
    rw [hrw]
    cases op with
    | push e =>
      have hw : q.tail + 1 < U64 := by omega
      have hhd : q.head < U64 := by omega
      have hnt : (q.tail + 1) % U64 = q.tail + 1 := Nat.mod_eq_of_lt hw
      have hsub : (q.tail + 1 + U64 - q.head % U64) % U64 = q.tail + 1 - q.head := by
        rw [Nat.mod_eq_of_lt hhd]
        have h1 : q.tail + 1 + U64 - q.head = U64 + (q.tail + 1 - q.head) := by omega
        rw [h1, Nat.add_mod_left]
        apply Nat.mod_eq_of_lt
        rw [U64_eq] at hb ⊢
        omega
      by_cases hfull : MAP_REWARD_QUEUE_CAPACITY < q.tail + 1 - q.head
      · have hstep : stepR st q (ROp.push e) = q := by
          simp [stepR, enqueue_map_reward, hnt, hsub, hfull]
        rw [hstep]
        exact GoodR_mono (by omega)
          (ih st q (n + 1)
            ⟨hg1, by simp only [MAP_REWARD_QUEUE_CAPACITY]; omega, by omega⟩
            (by omega))
      · have hstep : stepR st q (ROp.push e) =
            { q with
              entries := fun i =>
                if i = q.tail % MAP_REWARD_QUEUE_CAPACITY then e else q.entries i,
              tail := q.tail + 1 } := by
          simp [stepR, enqueue_map_reward, hnt, hsub, hfull]
        rw [hstep]
        simp only [MAP_REWARD_QUEUE_CAPACITY] at hfull
        exact GoodR_mono (by omega)
          (ih st _ (n + 1)
            ⟨by simp only; omega, by simp only [MAP_REWARD_QUEUE_CAPACITY]; omega,
             by simp only; omega⟩
            (by omega))
    | pop =>
      by_cases hemp : q.head = q.tail
      · have hstep : stepR st q ROp.pop = q := by
          simp [stepR, pop_map_reward, hemp]
        rw [hstep]
        exact GoodR_mono (by omega)
          (ih st q (n + 1)
            ⟨hg1, by simp only [MAP_REWARD_QUEUE_CAPACITY]; omega, by omega⟩
            (by omega))
      · have hw : q.head + 1 < U64 := by omega
        have hstep : stepR st q ROp.pop =
            { q with
              entries := fun i =>
                if i = q.head % MAP_REWARD_QUEUE_CAPACITY then MapRewardEntry.zero
                else q.entries i,
              head := q.head + 1 } := by
          simp [stepR, pop_map_reward, hemp, Nat.mod_eq_of_lt hw]
        rw [hstep]
        exact GoodR_mono (by omega)
          (ih st _ (n + 1)
            ⟨by simp only; omega, by simp only [MAP_REWARD_QUEUE_CAPACITY]; omega,
             by simp only; omega⟩
            (by omega))

end TrophyQueueLemmas

section WrapLemmas

open PurgeGame

/-- The final queue state of a concatenated run factors through the
intermediate state. -/
theorem runQT_fst_append :
    ∀ (a b : List QOp) (q : PendingMapMintQueue),
      (runQT (a ++ b) q).1 = (runQT b (runQT a q).1).1 := by
  intro a
  induction a with
  | nil =>
    intro b q
    simp [runQT]
  | cons op rest ih =>
    intro b q
    cases op with
    | push e =>
      cases hp : q.push e with
      | ok q2 => simp [runQT, hp, ih]
      | error err => simp [runQT, hp, ih]
    | pop =>
      cases hp : q.pop with
      | ok pr => simp [runQT, hp, ih]
      | error err => simp [runQT, hp, ih]

/-- After n push-then-pop pairs from the initial queue, head and tail both
equal n (for n below the u64 wrap) and every slot is back to the default. -/
theorem pushPops_run :
    ∀ n : Nat, n < U64 →
      (runQT (pushPops n) initQ).1 =
        { head := n, tail := n, items := fun _ => PendingMapMint.zero } := by
  intro n
  induction n with
  | zero =>
    intro h
    simp [pushPops, runQT, initQ]
  | succ n ih =>
    intro h
    have hn : n < U64 := by omega
    rw [pushPops, runQT_fst_append, ih hn]
    have hp : ({ head := n, tail := n, items := fun _ => PendingMapMint.zero } :
        PendingMapMintQueue).push ⟨1, 1, 1⟩ =
        .ok { head := n, tail := n + 1,
              items := fun i =>
                if i = n % MAP_QUEUE_CAPACITY then (⟨1, 1, 1⟩ : PendingMapMint)
                else PendingMapMint.zero } := by
      exact push_ok_eq
        (q := { head := n, tail := n, items := fun _ => PendingMapMint.zero })
        (e := (⟨1, 1, 1⟩ : PendingMapMint))
        (by simp [PendingMapMintQueue.len, MAP_QUEUE_CAPACITY]) h
    have hpop : ({ head := n, tail := n + 1,
                   items := fun i =>
                     if i = n % MAP_QUEUE_CAPACITY then (⟨1, 1, 1⟩ : PendingMapMint)
                     else PendingMapMint.zero } : PendingMapMintQueue).pop =
        .ok ((⟨1, 1, 1⟩ : PendingMapMint),
             { head := n + 1, tail := n + 1,
               items := fun _ => PendingMapMint.zero }) := by
      have hitem : (fun i =>
          if i = n % MAP_QUEUE_CAPACITY then PendingMapMint.zero
          else
            if i = n % MAP_QUEUE_CAPACITY then (⟨1, 1, 1⟩ : PendingMapMint)
            else PendingMapMint.zero) = fun _ : Nat => PendingMapMint.zero := by
        funext i
        by_cases hi : i = n % MAP_QUEUE_CAPACITY <;> simp [hi]
      rw [pop_ok_eq (by show ¬ (n = n + 1); omega) h]
      simp only [Except.ok.injEq, Prod.mk.injEq, PendingMapMintQueue.mk.injEq]
      refine ⟨by simp, ?_⟩
      simp [hitem]
    simp only [runQT, hp, hpop]

/-- The state of the map mint queue after bigSeq: the tail has wrapped to 0
while head is 2^64 - 1. -/
theorem bigSeq_state :
    (runQT bigSeq initQ).1 =
      { head := U64 - 1, tail := 0,
        items := fun i =>
          if i = (U64 - 1) % MAP_QUEUE_CAPACITY then (⟨1, 1, 1⟩ : PendingMapMint)
          else PendingMapMint.zero } := by
  rw [bigSeq, runQT_fst_append, pushPops_run (U64 - 1) (by rw [U64_eq]; omega)]
  have hlen : ({ head := U64 - 1, tail := U64 - 1,
                 items := fun _ => PendingMapMint.zero } :
      PendingMapMintQueue).len < MAP_QUEUE_CAPACITY := by
    simp [PendingMapMintQueue.len, MAP_QUEUE_CAPACITY]
  have hwrap : (U64 - 1 + 1) % U64 = 0 := by
    rw [U64_eq]
  simp only [runQT, PendingMapMintQueue.push, Nat.not_le.mpr hlen, if_false]
  simp only [hwrap]

end WrapLemmas

section ClaimTheorems

open PurgeGame PurgeCoin PurgeTrophies

/-- Claim C1: evaluated at a concrete state below the cap, advance_level
increments the level by exactly 1 and sets phase Maintenance, but leaves
prize_pool_lamports, next_prize_pool_lamports, carryover_lamports and
last_level_prize_pool all untouched: the snapshot of the prize pool into
last-level storage, the roll of next_prize_pool into the active pool and the
carryover of the unclaimed remainder demanded by the claim (and announced by
the TODO comments in the source) do not happen.  At the cap it fails
MaxLevelReached as claimed. -/
theorem advance_level_omits_prize_pool_rotation :
    advance_level gs1 = .ok { gs1 with level := 2, phase := .Maintenance } ∧
    (advance_level gs1).toOption.map GameState.prize_pool_lamports = some 100 ∧
    (advance_level gs1).toOption.map GameState.next_prize_pool_lamports = some 50 ∧
    (advance_level gs1).toOption.map GameState.carryover_lamports = some 7 ∧
    (advance_level gs1).toOption.map GameState.last_level_prize_pool = some 3 ∧
    advance_level { gs1 with level := 9 } = .error .MaxLevelReached := by
  refine ⟨rfl, ?_, ?_, ?_, ?_, rfl⟩ <;> decide

/-- Claim C5: request_rng moves the lock from Idle to Pending recording slot
and tag and fails RngRequestPending while Pending; fulfill_rng fails
RngNotLocked while Idle, fails Unauthorized for any caller other than the
configured rng_provider while Pending, and from the provider while Pending
stores the revealed word, clears the lock and marks the request fulfilled. -/
theorem rng_request_fulfill_protocol :
    ∀ (s : GameState) (clock_slot tag bump w caller : Nat) (req : RngRequestState),
      (s.rng_locked = false →
        request_rng s clock_slot tag bump =
          .ok ({ s with rng_locked := true, rng_last_request_slot := clock_slot },
               { slot := clock_slot, tag := tag, fulfilled := false, bump := bump })) ∧
      (s.rng_locked = true →
        request_rng s clock_slot tag bump = .error .RngRequestPending) ∧
      (s.rng_locked = false → fulfill_rng caller s req w = .error .RngNotLocked) ∧
      (s.rng_locked = true → caller ≠ s.config.rng_provider →
        fulfill_rng caller s req w = .error .Unauthorized) ∧
      (s.rng_locked = true → caller = s.config.rng_provider →
        fulfill_rng caller s req w =
          .ok ({ s with rng_word := w, rng_locked := false },
               { req with fulfilled := true })) := by
  intro s clock_slot tag bump w caller req
  refine ⟨?_, ?_, ?_, ?_, ?_⟩ <;> intro h
  · simp [request_rng, h]
  · simp [request_rng, h]
  · simp [fulfill_rng, h]
  · intro hc
    simp [fulfill_rng, h, hc]
  · intro hc
    simp [fulfill_rng, h, hc]

/-- Witness for C5: the protocol theorem applied at a concrete pending state
with the provider key 77 of cfg1 as the caller. -/
theorem rng_request_fulfill_protocol_witness :
    fulfill_rng 77 { gs1 with rng_locked := true } req0 123 =
      .ok ({ { gs1 with rng_locked := true } with rng_word := 123, rng_locked := false },
           { req0 with fulfilled := true }) :=
  (rng_request_fulfill_protocol { gs1 with rng_locked := true } 0 0 0 123 77 req0).2.2.2.2
    (by decide) (by decide)

/-- Claim C6 counterexample: with the PURGE jackpot pool at u64::MAX, settling
a loss of a wager of 1 succeeds but leaves the pool unchanged (u64
saturating_add), so the pool does not change by exactly +amount as the claim
states. -/
theorem settle_bet_loss_saturates_at_max :
    ¬ ((settle_bet coinMax betU false 0 4).toOption.map
         (fun r => (r.1.jackpot_pool_purge : Int)) =
       some ((coinMax.jackpot_pool_purge : Int) + (betU.amount : Int))) := by
  decide

/-- Claim C6 amended: settle_bet on an already-resolved record always fails
BetAlreadyResolved and changes nothing; on an unresolved record it marks the
record resolved and the jackpot pool changes by exactly +amount on a loss
whenever that does not overflow u64 (saturating at u64::MAX otherwise), and
by -payout floored at 0 (saturating, never negative) on a win. -/
theorem settle_bet_one_shot_pool_rules :
    ∀ (s : PurgeCoinState) (b : BetAccount) (result : Bool) (payout clock_slot : Nat)
      (s2 : PurgeCoinState) (b2 : BetAccount),
      (b.resolved = true →
        settle_bet s b result payout clock_slot = .error .BetAlreadyResolved) ∧
      (settle_bet s b result payout clock_slot = .ok (s2, b2) →
        b.resolved = false ∧ b2.resolved = true ∧ b2.result = some result ∧
        (result = true →
          (payout ≤ s.jackpot_pool_purge →
            (s2.jackpot_pool_purge : Int) =
              (s.jackpot_pool_purge : Int) - (payout : Int)) ∧
          (s.jackpot_pool_purge < payout → s2.jackpot_pool_purge = 0)) ∧
        (result = false →
          (s.jackpot_pool_purge + b.amount ≤ U64 - 1 →
            s2.jackpot_pool_purge = s.jackpot_pool_purge + b.amount) ∧
          (U64 - 1 < s.jackpot_pool_purge + b.amount →
            s2.jackpot_pool_purge = U64 - 1))) := by
  intro s b result payout clock_slot s2 b2
  constructor
  · intro h
    simp [settle_bet, h]
  · intro h
    by_cases hr : b.resolved
    · simp [settle_bet, hr] at h
    · simp only [settle_bet, hr, if_false, Bool.false_eq_true] at h
      rw [Except.ok.injEq, Prod.mk.injEq] at h
      obtain ⟨hs, hb⟩ := h
      refine ⟨by simp [hr], by rw [← hb], by rw [← hb], ?_, ?_⟩
      · intro hres
        subst hres
        simp only [if_true] at hs
        constructor
        · intro hle
          rw [← hs]
          simp only
          omega
        · intro hlt
          rw [← hs]
          simp only
          omega
      · intro hres
        subst hres
        simp only [Bool.false_eq_true, if_false] at hs
        constructor
        · intro hle
          rw [← hs]
          simp only
          omega
        · intro hlt
          rw [← hs]
          simp only
          omega

/-- Witness for C6 amended: a concrete losing settlement on coin1 adds the
wager of 1 to the pool of 1000. -/
theorem settle_bet_one_shot_pool_rules_witness :
    (settle_bet coin1 betU false 0 4 =
      .ok ({ coin1 with jackpot_pool_purge := 1001 },
           { betU with resolved := true, result := some false,
                       slot_resolved := some 4 })) ∧
    ({ coin1 with jackpot_pool_purge := 1001 } : PurgeCoinState).jackpot_pool_purge =
      coin1.jackpot_pool_purge + betU.amount := by
  have h := (settle_bet_one_shot_pool_rules coin1 betU false 0 4
      { coin1 with jackpot_pool_purge := 1001 }
      { betU with resolved := true, result := some false, slot_resolved := some 4 }).2
  refine ⟨rfl, ?_⟩
  exact (((h rfl).2.2.2.2) rfl).1 (by decide)

/-- Claim C7: a trait ticket page accepts a push exactly while it holds fewer
than 64 entries (so the 65th push, at count = 64, fails TicketPageFull);
ensure_header on a non-empty page with a different key fails
TicketPageMismatch and on a matching key changes nothing; clear resets count
to 0 and wipes every seat, after which ensure_header with any new key
succeeds and rebinds the page to that key. -/
theorem trait_ticket_page_rules :
    ∀ (p : TraitTicketPage) (player level trait_id page_index : Nat),
      (p.count < TICKET_PAGE_CAPACITY →
        p.push player =
          .ok (p.count,
               { p with seats := fun i => if i = p.count then player else p.seats i,
                        count := p.count + 1 })) ∧
      (TICKET_PAGE_CAPACITY ≤ p.count → p.push player = .error .TicketPageFull) ∧
      (0 < p.count →
        ¬(p.level = level ∧ p.trait_id = trait_id ∧ p.page_index = page_index) →
        p.ensure_header level trait_id page_index = .error .TicketPageMismatch) ∧
      (0 < p.count → p.level = level → p.trait_id = trait_id → p.page_index = page_index →
        p.ensure_header level trait_id page_index = .ok p) ∧
      (p.clear.count = 0 ∧ ∀ i, p.clear.seats i = 0) ∧
      (p.clear.ensure_header level trait_id page_index =
        .ok { p.clear with level := level, trait_id := trait_id,
                           page_index := page_index }) := by
  intro p player level trait_id page_index
  refine ⟨?_, ?_, ?_, ?_, ⟨rfl, fun _ => rfl⟩, ?_⟩
  · intro h
    have hc : p.count + 1 ≤ U16 - 1 := by
      have : p.count < 64 := by simpa [TICKET_PAGE_CAPACITY] using h
      simp only [U16]
      omega
    simp [TraitTicketPage.push, Nat.not_le.mpr h, Nat.min_eq_left hc]
  · intro h
    simp [TraitTicketPage.push, h]
  · intro h hne
    have hc : ¬ p.count = 0 := by omega
    simp only [TraitTicketPage.ensure_header, hc, if_false]
    rw [if_pos]
    tauto
  · intro h h1 h2 h3
    have hc : ¬ p.count = 0 := by omega
    simp [TraitTicketPage.ensure_header, hc, h1, h2, h3]
  · simp [TraitTicketPage.ensure_header, TraitTicketPage.clear]

/-- Witness for C7: pushing onto the empty concrete page seats the player at
position 0 and bumps count to 1. -/
theorem trait_ticket_page_rules_witness :
    page0.push 42 =
      .ok (page0.count,
           { page0 with seats := fun i => if i = page0.count then 42 else page0.seats i,
                        count := page0.count + 1 }) :=
  (trait_ticket_page_rules page0 42 0 0 0).1 (by decide)

/-- Claim C8: with the authorized receiver, claim_affiliate(amount) with
amount greater than pending_claim fails PayoutExceeded (pending unchanged,
since the failing instruction mutates nothing), and with amount at most
pending_claim decreases pending_claim by exactly amount. -/
theorem claim_affiliate_cap_rules :
    ∀ (receiver : Nat) (s : PurgeCoinState) (a : AffiliateState)
      (amount clock_slot : Nat),
      receiver = s.authority →
      (a.pending_claim < amount →
        claim_affiliate receiver s a amount clock_slot = .error .PayoutExceeded) ∧
      (amount ≤ a.pending_claim →
        claim_affiliate receiver s a amount clock_slot =
          .ok { a with pending_claim := a.pending_claim - amount,
                       last_claim_slot := clock_slot } ∧
        (a.pending_claim - amount) + amount = a.pending_claim) := by
  intro receiver s a amount clock_slot hr
  constructor
  · intro h
    simp [claim_affiliate, hr, h]
  · intro h
    refine ⟨?_, by omega⟩
    simp [claim_affiliate, hr, Nat.not_lt.mpr h]

/-- Witness for C8: claiming 15 of the 40 pending of aff1 as the coin
authority (key 5) leaves exactly 25 pending. -/
theorem claim_affiliate_cap_rules_witness :
    claim_affiliate 5 coin1 aff1 15 9 =
      .ok { aff1 with pending_claim := 25, last_claim_slot := 9 } :=
  ((claim_affiliate_cap_rules 5 coin1 aff1 15 9 (by decide)).2 (by decide)).1

/-- Claim C10: claim_affiliate succeeds only when the signing receiver equals
the coin ledger's stored authority; any other receiver, including the key
identified by the affiliate record's code_seed, fails Unauthorized before any
mutation. -/
theorem claim_affiliate_requires_ledger_authority :
    ∀ (receiver : Nat) (s : PurgeCoinState) (a : AffiliateState)
      (amount clock_slot : Nat),
      (receiver ≠ s.authority →
        claim_affiliate receiver s a amount clock_slot = .error .Unauthorized) ∧
      (∀ a2, claim_affiliate receiver s a amount clock_slot = .ok a2 →
        receiver = s.authority) := by
  intro receiver s a amount clock_slot
  constructor
  · intro h
    simp [claim_affiliate, h]
  · intro a2 h
    by_cases hr : receiver = s.authority
    · exact hr
    · simp [claim_affiliate, hr] at h

/-- Witness for C10: the affiliate identified by code_seed 21 of aff1 cannot
claim from coin1 (whose authority is key 5): the call fails Unauthorized. -/
theorem claim_affiliate_requires_ledger_authority_witness :
    claim_affiliate aff1.code_seed coin1 aff1 1 9 = .error .Unauthorized :=
  (claim_affiliate_requires_ledger_authority aff1.code_seed coin1 aff1 1 9).1 (by decide)

/-- Claim C9 amended: whenever queue_map_mint or dequeue_map_mint succeeds on
a queue satisfying the ring-buffer invariant that has not reached the u64
wrap boundary (head ≤ tail ≤ head + 64 and tail + 1 < 2^64 — the states
reachable in fewer than 2^64 operations), the map_queue_len mirror written by
the instruction equals the queue's new length tail - head.  At the wrap
boundary itself the mirror instead records len() = tail.saturating_sub(head)
= 0 while tail - head as integers is negative (see the counterexample). -/
theorem map_queue_len_mirror :
    ∀ (caller : Nat) (s : GameState) (q : PendingMapMintQueue) (e : PendingMapMint),
      q.head ≤ q.tail → q.tail ≤ q.head + MAP_QUEUE_CAPACITY → q.tail + 1 < U64 →
      (∀ s2 q2, queue_map_mint caller s q e = .ok (s2, q2) →
        s2.map_queue_len = q2.len ∧
        (s2.map_queue_len : Int) = (q2.tail : Int) - (q2.head : Int)) ∧
      (∀ s2 q2 popped, dequeue_map_mint caller s q = .ok (s2, q2, popped) →
        s2.map_queue_len = q2.len ∧
        (s2.map_queue_len : Int) = (q2.tail : Int) - (q2.head : Int)) := by
  intro caller s q e h1 h2 h3
  rw [U64_eq] at h3
  constructor
  · intro s2 q2 h
    by_cases hc : caller = s.authority
    · by_cases hfull : MAP_QUEUE_CAPACITY ≤ q.len
      · simp [queue_map_mint, hc, PendingMapMintQueue.push, hfull] at h
      · simp only [queue_map_mint, hc, ne_eq, not_true_eq_false, if_false,
          PendingMapMintQueue.push, hfull, Except.ok.injEq, Prod.mk.injEq] at h
        obtain ⟨hs2, hq2⟩ := h
        simp only [PendingMapMintQueue.len, MAP_QUEUE_CAPACITY] at hfull ⊢
        subst hs2 hq2
        simp only [PendingMapMintQueue.len]
        have hm : (q.tail + 1) % U64 = q.tail + 1 := by
          rw [U64_eq]
          omega
        rw [hm, U32_eq]
        constructor <;> omega
    · simp [queue_map_mint, hc] at h
  · intro s2 q2 popped h
    by_cases hc : caller = s.authority
    · by_cases hemp : q.head = q.tail
      · simp [dequeue_map_mint, hc, PendingMapMintQueue.pop, hemp] at h
      · simp only [dequeue_map_mint, hc, ne_eq, not_true_eq_false, if_false,
          PendingMapMintQueue.pop, hemp, Except.ok.injEq, Prod.mk.injEq] at h
        obtain ⟨hs2, hq2, hpop⟩ := h
        simp only [MAP_QUEUE_CAPACITY] at h2
        subst hs2 hq2
        simp only [PendingMapMintQueue.len]
        have hm : (q.head + 1) % U64 = q.head + 1 := by
          rw [U64_eq]
          omega
        rw [hm, U32_eq]
        constructor <;> omega
    · simp [dequeue_map_mint, hc] at h

/-- Witness for C9: key 11 is gs1's authority; pushing one entry onto the
empty queue mirrors length 1 into the game state. -/
theorem map_queue_len_mirror_witness :
    ({ gs1 with map_queue_len := 1 } : GameState).map_queue_len =
      (PendingMapMintQueue.mk 0 ((0 + 1) % U64)
        (fun i => if i = 0 % 64 then ⟨1, 1, 1⟩ else initQ.items i)).len ∧
    (({ gs1 with map_queue_len := 1 } : GameState).map_queue_len : Int) =
      ((PendingMapMintQueue.mk 0 ((0 + 1) % U64)
        (fun i => if i = 0 % 64 then ⟨1, 1, 1⟩ else initQ.items i)).tail : Int) -
      ((PendingMapMintQueue.mk 0 ((0 + 1) % U64)
        (fun i => if i = 0 % 64 then ⟨1, 1, 1⟩ else initQ.items i)).head : Int) :=
  (map_queue_len_mirror 11 gs1 initQ ⟨1, 1, 1⟩ (by decide) (by decide)
      (by rw [U64_eq]; decide)).1
    { gs1 with map_queue_len := 1 }
    (PendingMapMintQueue.mk 0 ((0 + 1) % U64)
      (fun i => if i = 0 % 64 then ⟨1, 1, 1⟩ else initQ.items i))
    (by simp [queue_map_mint, gs1, PendingMapMintQueue.push, initQ,
          PendingMapMintQueue.len, MAP_QUEUE_CAPACITY, U32_eq, U64_eq])

/-- Claim C9 counterexample: the claim asserts the mirror equality after
EVERY successful queue_map_mint.  The wrap-boundary queue qWrap is reachable
(2^64 - 1 push-then-pop pairs from the initial queue, first conjunct); at
qWrap a queue_map_mint by the recorded authority succeeds (second conjunct),
the instruction writes map_queue_len = len() = 0, but the resulting queue's
tail - head as integers is -(2^64 - 1), so after this successful
queue_map_mint the mirror does not equal tail - head (third conjunct). -/
theorem queue_map_mint_mirror_wrap_breaks :
    (runQT (pushPops (U64 - 1)) initQ).1 = qWrap ∧
    (queue_map_mint 11 gs1 qWrap ⟨1, 1, 1⟩).isOk = true ∧
    ¬ ((queue_map_mint 11 gs1 qWrap ⟨1, 1, 1⟩).toOption.map
         (fun r => (r.1.map_queue_len : Int)) =
       (queue_map_mint 11 gs1 qWrap ⟨1, 1, 1⟩).toOption.map
         (fun r => (r.2.tail : Int) - (r.2.head : Int))) := by
  refine ⟨pushPops_run (U64 - 1) (by rw [U64_eq]; omega), ?_, ?_⟩
  · decide
  · decide

/-- Claim C2 counterexample: the claim states that every state-mutating
operation of the three ledgers validates the caller's key against the owning
singleton's stored authority/governance key before mutating, failing
Unauthorized otherwise, and names advance_level and pop_map_reward as
instances.  Both operations mutate state while consulting no caller identity
at all: their account contexts contain no signer, so advance_level (embedded
without a caller argument, exactly as in the source) succeeds for any
invoker, and so does pop_map_reward on a non-empty queue.  Here both succeed
and mutate at concrete states, so no Unauthorized validation precedes the
mutation. -/
theorem advance_level_and_pop_map_reward_skip_validation :
    (pop_map_reward rq1).toOption.map MapRewardQueueAccount.head = some 1 ∧
    (advance_level gs1).toOption.map GameState.level = some 2 := by
  constructor <;> decide

/-- Claim C2 amended: the configuration, queue-admin and ticket-admin
operations (queue_map_mint, dequeue_map_mint, add_trait_ticket,
clear_trait_ticket_page, configure_game on the game ledger; award_affiliate,
configure_coin, claim_affiliate on the coin ledger; award_trophy and
enqueue_map_reward on the trophy ledger) validate the caller's key against
the owning singleton's stored authority/governance key before any mutation
and fail Unauthorized otherwise; but advance_level and pop_map_reward
perform no caller validation: they succeed for any invoker whenever their
state precondition holds. -/
theorem authority_gate_per_operation :
    ∀ (caller : Nat) (gs : GameState) (q : PendingMapMintQueue) (e : PendingMapMint)
      (page : TraitTicketPage) (player lv tr pg : Nat) (cargs : ConfigureGameArgs)
      (cs : PurgeCoinState) (a : AffiliateState) (cseed abump amount clock_slot : Nat)
      (ms : TrophyState) (v : TrophyVault) (rq : MapRewardQueueAccount)
      (re : MapRewardEntry) (om1 om2 om3 om4 : Option Nat),
      (caller ≠ gs.authority →
        queue_map_mint caller gs q e = .error .Unauthorized ∧
        dequeue_map_mint caller gs q = .error .Unauthorized ∧
        add_trait_ticket caller gs page player lv tr pg = .error .Unauthorized ∧
        clear_trait_ticket_page caller gs page lv tr pg = .error .Unauthorized ∧
        configure_game caller gs cargs = .error .Unauthorized) ∧
      (caller ≠ cs.authority →
        award_affiliate caller cs a cseed abump amount = .error .Unauthorized ∧
        configure_coin caller cs om1 om2 om3 om4 = .error .Unauthorized ∧
        claim_affiliate caller cs a amount clock_slot = .error .Unauthorized) ∧
      (caller ≠ ms.authority →
        award_trophy caller ms v amount = .error .Unauthorized) ∧
      (caller ≠ ms.game_authority →
        enqueue_map_reward caller ms rq re = .error .Unauthorized) ∧
      (gs.level < gs.config.max_level → (advance_level gs).isOk = true) ∧
      (rq.head ≠ rq.tail → (pop_map_reward rq).isOk = true) := by
  intro caller gs q e page player lv tr pg cargs cs a cseed abump amount clock_slot
    ms v rq re om1 om2 om3 om4
  refine ⟨?_, ?_, ?_, ?_, ?_, ?_⟩
  · intro h
    exact ⟨by simp [queue_map_mint, h], by simp [dequeue_map_mint, h],
           by simp [add_trait_ticket, h], by simp [clear_trait_ticket_page, h],
           by simp [configure_game, h]⟩
  · intro h
    exact ⟨by simp [award_affiliate, h], by simp [configure_coin, h],
           by simp [claim_affiliate, h]⟩
  · intro h
    simp [award_trophy, h]
  · intro h
    simp [enqueue_map_reward, h]
  · intro h
    simp [advance_level, Nat.not_le.mpr h, Except.isOk, Except.toBool]
  · intro h
    simp [pop_map_reward, h, Except.isOk, Except.toBool]

/-- Witness for C2 amended: caller 99 is none of the recorded keys, so the
gated operations all fail Unauthorized on the concrete fixtures; and
advance_level on gs1 (level 1 < cap 9) succeeds without any caller. -/
theorem authority_gate_per_operation_witness :
    dequeue_map_mint 99 gs1 rqGame1 = .error .Unauthorized ∧
    enqueue_map_reward 99 troph1 rq1 MapRewardEntry.zero = .error .Unauthorized ∧
    (advance_level gs1).isOk = true := by
  have h := authority_gate_per_operation 99 gs1 rqGame1 PendingMapMint.zero page0
    0 0 0 0 ⟨none, none, none, none, none⟩ coin1 aff1 0 0 0 0 troph1
    ⟨0, 0, 0⟩ rq1 MapRewardEntry.zero none none none none
  exact ⟨(h.1 (by decide)).2.1, h.2.2.2.1 (by decide), h.2.2.2.2.1 (by decide)⟩

/-- Claim C3 counterexample: the claim quantifies over every sequence of push
and pop operations, but head and tail are u64 counters advanced with
wrapping_add.  After 2^64 - 1 push-pop pairs followed by one more push (the
concrete sequence bigSeq), the tail has wrapped to 0 while head is 2^64 - 1,
so the claimed invariant 0 ≤ tail - head fails. -/
theorem queue_tail_head_wraps_negative :
    ((runQT bigSeq initQ).1.tail : Int) - ((runQT bigSeq initQ).1.head : Int) < 0 := by
  rw [bigSeq_state]
  simp only
  rw [U64_eq]
  omega

/-- Claim C3 amended: for every sequence of fewer than 2^64 operations on
either capacity-64 queue, 0 ≤ tail - head ≤ 64 holds; a push when the queue
holds 64 entries fails Full and a pop when head == tail fails Empty (each
failing instruction changes nothing, the embedding being purely functional);
and a popped slot is reset to its zero value. -/
theorem queue_invariants_bounded :
    (∀ ops : List QOp, ops.length < U64 →
      (runQT ops initQ).1.head ≤ (runQT ops initQ).1.tail ∧
      (runQT ops initQ).1.tail - (runQT ops initQ).1.head ≤ MAP_QUEUE_CAPACITY) ∧
    (∀ (st : TrophyState) (ops : List ROp), ops.length < U64 →
      (runR st ops initR).head ≤ (runR st ops initR).tail ∧
      (runR st ops initR).tail - (runR st ops initR).head ≤ MAP_REWARD_QUEUE_CAPACITY) ∧
    (∀ (q : PendingMapMintQueue) (e : PendingMapMint),
      MAP_QUEUE_CAPACITY ≤ q.len → q.push e = .error .QueueFull) ∧
    (∀ q : PendingMapMintQueue, q.head = q.tail → q.pop = .error .QueueEmpty) ∧
    (∀ (q : PendingMapMintQueue) (e : PendingMapMint) (q2 : PendingMapMintQueue),
      q.pop = .ok (e, q2) → q2.items (q.head % MAP_QUEUE_CAPACITY) = PendingMapMint.zero) ∧
    (∀ (st : TrophyState) (q : MapRewardQueueAccount) (e : MapRewardEntry),
      q.head ≤ q.tail → q.tail - q.head = MAP_REWARD_QUEUE_CAPACITY → q.tail + 1 < U64 →
      enqueue_map_reward st.game_authority st q e = .error .QueueFull) ∧
    (∀ q : MapRewardQueueAccount, q.head = q.tail →
      pop_map_reward q = .error .QueueEmpty) ∧
    (∀ (q q2 : MapRewardQueueAccount), pop_map_reward q = .ok q2 →
      q2.entries (q.head % MAP_REWARD_QUEUE_CAPACITY) = MapRewardEntry.zero) := by
  refine ⟨?_, ?_, ?_, ?_, ?_, ?_, ?_, ?_⟩
  · intro ops hlen
    have hg : GoodQ 0 initQ := ⟨Nat.le_refl 0, by simp [initQ], Nat.le_refl 0⟩
    have h := (runQT_refines ops initQ 0 hg (by omega)).1
    obtain ⟨h1, h2, _⟩ := h
    exact ⟨h1, by omega⟩
  · intro st ops hlen
    have hg : GoodR 0 initR := ⟨Nat.le_refl 0, by simp [initR], Nat.le_refl 0⟩
    have h := runR_good ops st initR 0 hg (by omega)
    obtain ⟨h1, h2, _⟩ := h
    exact ⟨h1, by omega⟩
  · intro q e h
    simp [PendingMapMintQueue.push, h]
  · intro q h
    simp [PendingMapMintQueue.pop, h]
  · intro q e q2 h
    by_cases hemp : q.head = q.tail
    · simp [PendingMapMintQueue.pop, hemp] at h
    · simp only [PendingMapMintQueue.pop, hemp, if_false, Except.ok.injEq,
        Prod.mk.injEq] at h
      obtain ⟨h1, h2⟩ := h
      rw [← h2]
      simp
  · intro st q e h1 h2 h3
    have hhd : q.head < U64 := by omega
    have hnt : (q.tail + 1) % U64 = q.tail + 1 := Nat.mod_eq_of_lt h3
    have hsub : (q.tail + 1 + U64 - q.head % U64) % U64 = q.tail + 1 - q.head := by
      rw [Nat.mod_eq_of_lt hhd]
      have he : q.tail + 1 + U64 - q.head = U64 + (q.tail + 1 - q.head) := by omega
      rw [he, Nat.add_mod_left]
      apply Nat.mod_eq_of_lt
      simp only [MAP_REWARD_QUEUE_CAPACITY] at h2
      rw [U64_eq] at h3 ⊢
      omega
    have hfull : MAP_REWARD_QUEUE_CAPACITY < q.tail + 1 - q.head := by
      simp only [MAP_REWARD_QUEUE_CAPACITY] at h2 ⊢
      omega
    simp [enqueue_map_reward, hnt, hsub, hfull]
  · intro q h
    simp [pop_map_reward, h]
  · intro q q2 h
    by_cases hemp : q.head = q.tail
    · simp [pop_map_reward, hemp] at h
    · simp only [pop_map_reward, hemp, if_false, Except.ok.injEq] at h
      rw [← h]
      simp

/-- Witness for C3 amended: a single push on the initial map mint queue keeps
0 ≤ tail - head ≤ 64. -/
theorem queue_invariants_bounded_witness :
    (runQT [QOp.push ⟨1, 1, 1⟩] initQ).1.head ≤ (runQT [QOp.push ⟨1, 1, 1⟩] initQ).1.tail ∧
    (runQT [QOp.push ⟨1, 1, 1⟩] initQ).1.tail - (runQT [QOp.push ⟨1, 1, 1⟩] initQ).1.head ≤
      MAP_QUEUE_CAPACITY :=
  queue_invariants_bounded.1 [QOp.push ⟨1, 1, 1⟩] (by decide)

/-- Claim C4 counterexample: after the wrapping sequence bigSeq, len()
(computed with saturating_sub) is 0 while tail - head as integers is
-(2^64 - 1), so len() does not equal tail - head as the claim states for
every sequence. -/
theorem queue_len_wraps_away_from_sub :
    ¬ (((runQT bigSeq initQ).1.len : Int) =
        ((runQT bigSeq initQ).1.tail : Int) - ((runQT bigSeq initQ).1.head : Int)) := by
  rw [bigSeq_state]
  simp only [PendingMapMintQueue.len]
  rw [U64_eq]
  omega

/-- Claim C4 amended: for every sequence of fewer than 2^64 push/pop
operations on the capacity-64 map mint queue, len() equals tail - head, and
the successful pops return exactly the trace of an ideal capacity-64 FIFO
list driven by the same operations: every successful pop returns the
earliest-pushed item not yet popped, including across storage-slot index
wraparound. -/
theorem map_mint_queue_fifo_bounded :
    ∀ ops : List QOp, ops.length < U64 →
      ((runQT ops initQ).1.len : Int) =
        ((runQT ops initQ).1.tail : Int) - ((runQT ops initQ).1.head : Int) ∧
      (runQT ops initQ).2 = (runSpecFifo ops []).2 := by
  intro ops hlen
  have hg : GoodQ 0 initQ := ⟨Nat.le_refl 0, by simp [initQ], Nat.le_refl 0⟩
  have h := runQT_refines ops initQ 0 hg (by omega)
  constructor
  · have h1 := h.1.1
    simp only [PendingMapMintQueue.len]
    omega
  · have h2 := h.2.2
    rwa [show absQ initQ = [] from by simp [absQ, initQ, PendingMapMintQueue.len]] at h2

/-- Witness for C4 amended: two pushes then two pops on the initial queue
return the two entries in FIFO order, matching the ideal list trace. -/
theorem map_mint_queue_fifo_bounded_witness :
    ((runQT [QOp.push ⟨1, 1, 1⟩, QOp.push ⟨2, 2, 2⟩, QOp.pop, QOp.pop] initQ).1.len : Int) =
      ((runQT [QOp.push ⟨1, 1, 1⟩, QOp.push ⟨2, 2, 2⟩, QOp.pop, QOp.pop] initQ).1.tail : Int) -
      ((runQT [QOp.push ⟨1, 1, 1⟩, QOp.push ⟨2, 2, 2⟩, QOp.pop, QOp.pop] initQ).1.head : Int) ∧
    (runQT [QOp.push ⟨1, 1, 1⟩, QOp.push ⟨2, 2, 2⟩, QOp.pop, QOp.pop] initQ).2 =
      (runSpecFifo [QOp.push ⟨1, 1, 1⟩, QOp.push ⟨2, 2, 2⟩, QOp.pop, QOp.pop] []).2 :=
  map_mint_queue_fifo_bounded [QOp.push ⟨1, 1, 1⟩, QOp.push ⟨2, 2, 2⟩, QOp.pop, QOp.pop]
    (by decide)

end ClaimTheorems
